import Mathlib

/-!
Verification development for the FCx-vs-C benchmark harness
(src/bchtsts/run_benchmarks.py).

Timing samples are modelled as rationals (the source stores fractional
milliseconds), process exit codes as integers, and fallible subprocess
invocations as Option values: some code means the process completed with
that exit code, none means the invocation raised (timeout expired,
executable not found, OS error).  The user-configured iteration count is
an integer, as in the source.
-/

namespace FCx

/-- Mirrors the Python dataclass BenchmarkResult: raw fields only, with
the derived accessors defined separately below (they are properties in
the source). -/
structure BenchmarkResult where
  name : String
  category : String
  opt_level : String
  fcx_times : List ℚ
  c_times : List ℚ
  fcx_compiled : Bool
  c_compiled : Bool
deriving Repr, DecidableEq

/-- Python builtin min over a non-empty list; the source only calls it
under a non-emptiness guard, so the value on the empty list is never
used (we pick 0). -/
def listMin : List ℚ → ℚ
  | [] => 0
  | a :: l => l.foldl min a

/-- Mirrors statistics.mean: sum divided by length.  The source only
calls it under a non-emptiness guard. -/
def listMean (l : List ℚ) : ℚ := l.sum / l.length

namespace BenchmarkResult

/-- Mirrors the property fcx_avg: mean(self.fcx_times) if self.fcx_times
else 0.0. -/
def fcx_avg (r : BenchmarkResult) : ℚ :=
  if r.fcx_times ≠ [] then listMean r.fcx_times else 0

/-- Mirrors the property c_avg: mean(self.c_times) if self.c_times
else 0.0. -/
def c_avg (r : BenchmarkResult) : ℚ :=
  if r.c_times ≠ [] then listMean r.c_times else 0

/-- Mirrors the property fcx_min: min(self.fcx_times) if self.fcx_times
else 0.0. -/
def fcx_min (r : BenchmarkResult) : ℚ :=
  if r.fcx_times ≠ [] then listMin r.fcx_times else 0

/-- Mirrors the property c_min: min(self.c_times) if self.c_times
else 0.0. -/
def c_min (r : BenchmarkResult) : ℚ :=
  if r.c_times ≠ [] then listMin r.c_times else 0

/-- Mirrors the property ratio: if self.c_min > 0 and self.fcx_min > 0
then self.fcx_min / self.c_min else 0.0. -/
def ratio (r : BenchmarkResult) : ℚ :=
  if 0 < r.c_min ∧ 0 < r.fcx_min then r.fcx_min / r.c_min else 0

end BenchmarkResult

/-! Compiler invocation (compile_fcx / compile_c).  The environment
records whether the source file exists and the outcome of the spawned
toolchain process: some code for a completed process with that return
code, none for a raised exception (subprocess.TimeoutExpired after the
fixed 30-second timeout, or FileNotFoundError). -/

structure CompileEnv where
  srcExists : Bool
  procOutcome : Option ℤ
deriving Repr, DecidableEq

/-- Outcome of one compile invocation: the boolean the source returns,
plus whether a toolchain process was spawned at all (the source spawns
one exactly when the existence guard passes). -/
structure CompileOutcome where
  ok : Bool
  spawned : Bool
deriving Repr, DecidableEq

/-- Mirrors BenchmarkRunner.compile_fcx: return False without spawning
when the source file is missing; otherwise spawn the toolchain and
return returncode == 0, with any exception caught and turned into
False. -/
def compile_fcx (env : CompileEnv) : CompileOutcome :=
  if !env.srcExists then ⟨false, false⟩
  else
    match env.procOutcome with
    | some code => ⟨code == 0, true⟩
    | none => ⟨false, true⟩

/-- Mirrors BenchmarkRunner.compile_c, whose control structure is
identical to compile_fcx (only the spawned command differs). -/
def compile_c (env : CompileEnv) : CompileOutcome :=
  if !env.srcExists then ⟨false, false⟩
  else
    match env.procOutcome with
    | some code => ⟨code == 0, true⟩
    | none => ⟨false, true⟩

/-! Single measured execution (run_binary).  The environment records
whether the binary exists, the outcomes of the warm-up and of the timed
subprocess.run calls, and the elapsed wall-clock duration measured
around the timed call.  A none outcome is a raised exception
(TimeoutExpired after 60 seconds, FileNotFoundError, OSError); the
warm-up run's exit code is ignored by the source, but an exception it
raises aborts the whole call because both runs sit in one try block. -/

structure RunEnv where
  binExists : Bool
  warmOutcome : Option ℤ
  timedOutcome : Option ℤ
  elapsed : ℚ
deriving Repr, DecidableEq

/-- Mirrors BenchmarkRunner.run_binary: None when the binary is missing;
one warm-up execution, then one timed execution; None when either call
raises; None when the timed exit code is outside the accepted set
(0, 1); otherwise the elapsed duration in milliseconds. -/
def run_binary (env : RunEnv) : Option ℚ :=
  if !env.binExists then none
  else
    match env.warmOutcome with
    | none => none
    | some _ =>
      match env.timedOutcome with
      | none => none
      | some code => if code = 0 ∨ code = 1 then some env.elapsed else none

/-- Process executions performed by one run_binary call, in order.  The
warm-up process is spawned first; the timed process is spawned only if
the warm-up call did not raise. -/
inductive ExecKind where
  | warmup
  | timed
deriving Repr, DecidableEq

/-- Execution trace of one run_binary call on an existing binary: a
warm-up execution, then (unless the warm-up raised) a timed
execution. -/
def run_binary_execs (env : RunEnv) : List ExecKind :=
  if !env.binExists then []
  else
    match env.warmOutcome with
    | none => [ExecKind.warmup]
    | some _ => [ExecKind.warmup, ExecKind.timed]

/-! Measurement phase of one side inside run_benchmark: the source sets
actual_iterations = self.iterations + 2, loops i over
range(actual_iterations), calls run_binary, and appends the returned
duration when it is not None and i > 0.  The iteration count is a Python
int, so it is modelled as an integer; range of a non-positive argument
is empty. -/

/-- Sample sequence recorded by the measurement loop of run_benchmark
for one side, given the configured iteration count and the run_binary
result of each loop iteration. -/
def phase_samples (n : ℤ) (runs : ℕ → Option ℚ) : List ℚ :=
  (List.range (n + 2).toNat).foldl
    (fun acc i =>
      match runs i with
      | some t => if 0 < i then acc ++ [t] else acc
      | none => acc)
    []

/-- Execution trace of the measurement loop for one side: the
concatenation of the run_binary traces of its iterations. -/
def phase_execs (n : ℤ) (runExecs : ℕ → List ExecKind) : List ExecKind :=
  (List.range (n + 2).toNat).foldl (fun acc i => acc ++ runExecs i) []

/-! Orchestrator (run_benchmark / run_all).  The environment of one
benchmark gathers the compile environments of both sides and, for each
side, the run_binary result of each measurement-loop iteration. -/

structure BenchEnv where
  fcxCompile : CompileEnv
  cCompile : CompileEnv
  fcxRuns : ℕ → Option ℚ
  cRuns : ℕ → Option ℚ

/-- Mirrors BenchmarkRunner.run_benchmark: compile both sides, run the
measurement loop for a side only when its compilation succeeded, and
always assemble a BenchmarkResult. -/
def run_benchmark (name category opt_level : String) (n : ℤ)
    (env : BenchEnv) : BenchmarkResult :=
  let fcx_compiled := (compile_fcx env.fcxCompile).ok
  let c_compiled := (compile_c env.cCompile).ok
  let fcx_times := if fcx_compiled then phase_samples n env.fcxRuns else []
  let c_times := if c_compiled then phase_samples n env.cRuns else []
  ⟨name, category, opt_level, fcx_times, c_times, fcx_compiled, c_compiled⟩

/-- Mirrors the module-level BENCHMARKS table: (name, category) pairs. -/
def BENCHMARKS : List (String × String) :=
  [("01_fibonacci", "computational"),
   ("02_primes_sieve", "computational"),
   ("03_factorial", "computational"),
   ("04_gcd_lcm", "computational"),
   ("05_collatz", "computational"),
   ("06_ackermann", "computational"),
   ("07_loop_sum", "loop"),
   ("08_nested_loops", "loop"),
   ("09_loop_unroll", "loop"),
   ("10_countdown", "loop"),
   ("11_int_arithmetic", "arithmetic"),
   ("12_mixed_ops", "arithmetic"),
   ("13_division_heavy", "arithmetic"),
   ("14_multiply_chain", "arithmetic"),
   ("15_modulo_ops", "arithmetic"),
   ("16_bit_count", "bitwise"),
   ("17_bit_reverse", "bitwise"),
   ("18_bit_shift", "bitwise"),
   ("19_xor_swap", "bitwise"),
   ("20_power_of_two", "bitwise"),
   ("21_recursion_deep", "function"),
   ("22_tail_recursion", "function"),
   ("23_mutual_recursion", "function"),
   ("24_function_chain", "function"),
   ("25_array_sum", "memory"),
   ("26_array_copy", "memory"),
   ("27_matrix_mult", "memory"),
   ("28_bubble_sort", "memory"),
   ("29_binary_search", "memory"),
   ("30_memory_throughput", "memory")]

/-- Mirrors the benchmark filter in run_all: keep (n, c) when category
is None or c equals the requested category.  No validation is performed
on the requested category. -/
def filter_benchmarks (category : Option String) : List (String × String) :=
  BENCHMARKS.filter (fun p => category.isNone || category == some p.2)

/-- Mirrors run_all: run every benchmark that passes the category
filter, in order, and collect the results.  The function is total: it
raises nothing on any input. -/
def run_all (opt_level : String) (n : ℤ) (envs : String → BenchEnv)
    (category : Option String) : List BenchmarkResult :=
  (filter_benchmarks category).map
    (fun p => run_benchmark p.1 p.2 opt_level n (envs p.1))

/-! Category aggregation in print_summary: for the results of one
category, collect each side's per-benchmark minimums that are strictly
positive, take their mean (0 when the filtered list is empty), and
divide the candidate mean by the reference mean when the latter is
strictly positive, 0 otherwise. -/

/-- Mirrors the list comprehension fcx_times = [r.fcx_min for r in
cat_results if r.fcx_min > 0]. -/
def cat_fcx_mins (rs : List BenchmarkResult) : List ℚ :=
  (rs.filter (fun r => decide (0 < r.fcx_min))).map BenchmarkResult.fcx_min

/-- Mirrors the list comprehension c_times = [r.c_min for r in
cat_results if r.c_min > 0]. -/
def cat_c_mins (rs : List BenchmarkResult) : List ℚ :=
  (rs.filter (fun r => decide (0 < r.c_min))).map BenchmarkResult.c_min

/-- Mirrors fcx_avg = mean(fcx_times) if fcx_times else 0 in
print_summary. -/
def cat_fcx_avg (rs : List BenchmarkResult) : ℚ :=
  if cat_fcx_mins rs ≠ [] then listMean (cat_fcx_mins rs) else 0

/-- Mirrors c_avg = mean(c_times) if c_times else 0 in print_summary. -/
def cat_c_avg (rs : List BenchmarkResult) : ℚ :=
  if cat_c_mins rs ≠ [] then listMean (cat_c_mins rs) else 0

/-- Mirrors ratio = fcx_avg / c_avg if c_avg > 0 else 0 in
print_summary. -/
def category_ratio (rs : List BenchmarkResult) : ℚ :=
  if 0 < cat_c_avg rs then cat_fcx_avg rs / cat_c_avg rs else 0

/-! Helper lemmas about the measurement loop. -/

/-- The accumulating loop of phase_samples is a filterMap over the index
list: index 0 is discarded, every other index contributes its sample
when the run produced one. -/
theorem phase_foldl_eq (runs : ℕ → Option ℚ) (l : List ℕ) :
    ∀ acc : List ℚ,
      l.foldl
        (fun acc i =>
          match runs i with
          | some t => if 0 < i then acc ++ [t] else acc
          | none => acc) acc
      = acc ++ l.filterMap (fun i => if 0 < i then runs i else none) := by
  induction l with
  | nil => intro acc; simp
  | cons a l ih =>
    intro acc
    rw [List.foldl_cons, List.filterMap_cons]
    cases h : runs a with
    | none => by_cases ha : 0 < a <;> simp [ih, ha]
    | some t => by_cases ha : 0 < a <;> simp [ih, ha]

/-- Closed form of phase_samples as a filterMap over the index range. -/
theorem phase_samples_eq (n : ℤ) (runs : ℕ → Option ℚ) :
    phase_samples n runs
      = (List.range (n + 2).toNat).filterMap
          (fun i => if 0 < i then runs i else none) := by
  unfold phase_samples
  rw [phase_foldl_eq]
  simp

/-- When the iteration count is at least -1, the loop visits index 0
and then exactly the indices 1 .. n+1, so the phase is a filterMap of
the run outcomes over those positive indices. -/
theorem phase_samples_eq_range' (n : ℤ) (runs : ℕ → Option ℚ) (hn : -1 ≤ n) :
    phase_samples n runs = (List.range' 1 ((n + 2).toNat - 1)).filterMap runs := by
  rw [phase_samples_eq, List.range_eq_range']
  obtain ⟨k, hk⟩ : ∃ k, (n + 2).toNat = k + 1 := ⟨(n + 2).toNat - 1, by omega⟩
  rw [hk, List.range'_succ]
  simp only [Nat.add_sub_cancel, List.filterMap_cons, lt_self_iff_false,
    if_false, Nat.zero_add]
  refine List.filterMap_congr ?_
  intro x hx
  rw [List.mem_range'_1] at hx
  rw [if_pos (by omega : 0 < x)]

/-- A filterMap of everywhere-defined outcomes keeps every element. -/
theorem length_filterMap_isSome (runs : ℕ → Option ℚ) :
    ∀ l : List ℕ, (∀ i ∈ l, (runs i).isSome) →
      (l.filterMap runs).length = l.length := by
  intro l
  induction l with
  | nil => intro _; rfl
  | cons a l ih =>
    intro h
    have ha := h a (List.mem_cons_self a l)
    rcases Option.isSome_iff_exists.mp ha with ⟨t, ht⟩
    rw [List.filterMap_cons, ht]
    simp only [List.length_cons]
    rw [ih (fun i hi => h i (List.mem_cons_of_mem a hi))]

/-! Claim theorems. -/

/-- C2: the ratio of a BenchmarkResult equals candidate-min divided by
reference-min when both minimums are strictly positive and equals 0
otherwise; in particular an empty reference sample sequence forces
ratio 0, and the value 0 is returned instead of any division when the
reference minimum is not positive. -/
theorem C2_ratio_cases (r : BenchmarkResult) :
    (0 < r.c_min ∧ 0 < r.fcx_min → r.ratio = r.fcx_min / r.c_min) ∧
    (¬(0 < r.c_min ∧ 0 < r.fcx_min) → r.ratio = 0) ∧
    (r.c_times = [] → r.ratio = 0) := by
  refine ⟨fun h => ?_, fun h => ?_, fun h => ?_⟩
  · rw [BenchmarkResult.ratio, if_pos h]
  · rw [BenchmarkResult.ratio, if_neg h]
  · have hc : r.c_min = 0 := by
      rw [BenchmarkResult.c_min, if_neg (by simp [h])]
    rw [BenchmarkResult.ratio, if_neg]
    rintro ⟨h1, _⟩
    rw [hc] at h1
    exact lt_irrefl 0 h1

/-- Witness for C2 at concrete results: a result with positive minimums
on both sides gets the quotient, a result with an empty reference side
gets 0 even though its candidate side is non-empty. -/
theorem C2_ratio_cases_witness :
    (⟨"a", "x", "O2", [4], [2], true, true⟩ : BenchmarkResult).ratio = 4 / 2 ∧
    (⟨"b", "x", "O2", [4], [], true, true⟩ : BenchmarkResult).ratio = 0 := by
  constructor
  · exact (C2_ratio_cases ⟨"a", "x", "O2", [4], [2], true, true⟩).1 (by decide)
  · exact (C2_ratio_cases ⟨"b", "x", "O2", [4], [], true, true⟩).2.2 rfl

/-- C10: the derived min and mean accessors are total and return the
sentinel 0 on an empty sample sequence, for either side. -/
theorem C10_accessors_total (r : BenchmarkResult) :
    (r.fcx_times = [] → r.fcx_min = 0 ∧ r.fcx_avg = 0) ∧
    (r.c_times = [] → r.c_min = 0 ∧ r.c_avg = 0) := by
  constructor
  · intro h
    constructor
    · rw [BenchmarkResult.fcx_min, if_neg (by simp [h])]
    · rw [BenchmarkResult.fcx_avg, if_neg (by simp [h])]
  · intro h
    constructor
    · rw [BenchmarkResult.c_min, if_neg (by simp [h])]
    · rw [BenchmarkResult.c_avg, if_neg (by simp [h])]

/-- Witness for C10 at a concrete result whose candidate and reference
sides are both empty. -/
theorem C10_accessors_total_witness :
    (⟨"a", "x", "O2", [], [], false, false⟩ : BenchmarkResult).fcx_min = 0 ∧
    (⟨"a", "x", "O2", [], [], false, false⟩ : BenchmarkResult).c_avg = 0 := by
  constructor
  · exact ((C10_accessors_total ⟨"a", "x", "O2", [], [], false, false⟩).1 rfl).1
  · exact ((C10_accessors_total ⟨"a", "x", "O2", [], [], false, false⟩).2 rfl).2

/-- C5: a compile invocation succeeds exactly when the source file
exists and the spawned process completed with exit status 0; a missing
source file means no process is spawned; a raised exception (timeout,
missing toolchain) yields failure; and compile_c follows the same
contract as compile_fcx. -/
theorem C5_compile_contract (env : CompileEnv) :
    ((compile_fcx env).ok = true ↔
      env.srcExists = true ∧ env.procOutcome = some 0) ∧
    (env.srcExists = false → (compile_fcx env).spawned = false) ∧
    (env.procOutcome = none → (compile_fcx env).ok = false) ∧
    compile_c env = compile_fcx env := by
  obtain ⟨src, outcome⟩ := env
  refine ⟨?_, ?_, ?_, rfl⟩
  · cases src <;> rcases outcome with _ | code <;> simp [compile_fcx, beq_iff_eq]
  · cases src <;> simp [compile_fcx]
  · rcases outcome with _ | code <;> cases src <;> simp [compile_fcx]

/-- Witness for C5 at concrete environments: an existing source with a
zero process exit compiles, a missing source spawns nothing, an
exception means failure. -/
theorem C5_compile_contract_witness :
    (compile_fcx ⟨true, some 0⟩).ok = true ∧
    (compile_fcx ⟨false, some 0⟩).spawned = false ∧
    (compile_fcx ⟨true, none⟩).ok = false := by
  refine ⟨?_, ?_, ?_⟩
  · exact (C5_compile_contract ⟨true, some 0⟩).1.mpr ⟨rfl, rfl⟩
  · exact (C5_compile_contract ⟨false, some 0⟩).2.1 rfl
  · exact (C5_compile_contract ⟨true, none⟩).2.2.1 rfl

/-- C7: when the candidate source file is missing, run_benchmark still
returns a full BenchmarkResult whose candidate side reports built =
false with an empty sample sequence, whose reference side is computed
exactly as it would be in any environment with the same reference data,
and whose identification fields are populated. -/
theorem C7_missing_candidate_source (name cat opt : String) (n : ℤ)
    (env : BenchEnv) (h : env.fcxCompile.srcExists = false) :
    (run_benchmark name cat opt n env).fcx_compiled = false ∧
    (run_benchmark name cat opt n env).fcx_times = [] ∧
    (run_benchmark name cat opt n env).c_compiled = (compile_c env.cCompile).ok ∧
    (∀ env' : BenchEnv, env'.cCompile = env.cCompile →
      env'.cRuns = env.cRuns →
      (run_benchmark name cat opt n env').c_times
        = (run_benchmark name cat opt n env).c_times) ∧
    (run_benchmark name cat opt n env).name = name ∧
    (run_benchmark name cat opt n env).category = cat := by
  have hfc : (compile_fcx env.fcxCompile).ok = false := by
    rw [compile_fcx, h]
    rfl
  refine ⟨?_, ?_, rfl, ?_, rfl, rfl⟩
  · simp [run_benchmark, hfc]
  · simp [run_benchmark, hfc]
  · intro env' h1 h2
    simp [run_benchmark, h1, h2]

/-- C1 counterexample: with configured iteration count 1 and every
execution succeeding, the measurement loop records 2 samples, not the
claimed 1 (the loop runs n + 2 = 3 times and discards only the first
iteration's sample). -/
theorem C1_counterexample :
    (phase_samples 1 (fun _ => some 1)).length = 2 ∧
    (phase_samples 1 (fun _ => some 1)).length ≠ 1 := by
  decide

/-- C1 (amended): for every measurement phase with configured iteration
count n ≥ 1 in which every execution succeeds, the recorded sample
sequence has length exactly n + 1: the loop performs n + 2 iterations
and discards only the first one as warm-up. -/
theorem C1_sample_count (n : ℤ) (runs : ℕ → Option ℚ) (hn : 1 ≤ n)
    (hruns : ∀ i, (runs i).isSome) :
    ((phase_samples n runs).length : ℤ) = n + 1 := by
  rw [phase_samples_eq_range' n runs (by omega)]
  rw [length_filterMap_isSome runs _ (fun i _ => hruns i)]
  rw [List.length_range']
  omega

/-- Witness for C1 with the default iteration count 5 and an
all-success environment: 6 samples are recorded. -/
theorem C1_sample_count_witness :
    ((phase_samples 5 (fun _ => some 1)).length : ℤ) = 5 + 1 :=
  C1_sample_count 5 (fun _ => some 1) (by norm_num) (fun _ => rfl)

/-- Per-run helper: the flattened trace of m identical warm-up/timed
pairs has length 2 m. -/
theorem flatten_replicate_pair_length (m : ℕ) (l : List ExecKind) :
    ((List.replicate m l).flatten).length = m * l.length := by
  induction m with
  | zero => simp
  | succ m ih =>
    rw [List.replicate_succ]
    simp [ih, Nat.succ_mul, Nat.add_comm]

/-- The accumulating loop of phase_execs concatenates the per-iteration
traces in order. -/
theorem phase_execs_foldl (re : ℕ → List ExecKind) (l : List ℕ) :
    ∀ acc : List ExecKind,
      l.foldl (fun acc i => acc ++ re i) acc = acc ++ (l.map re).flatten := by
  induction l with
  | nil => intro acc; simp
  | cons a l ih => intro acc; simp [ih]

/-- Closed form of the phase execution trace. -/
theorem phase_execs_eq (n : ℤ) (re : ℕ → List ExecKind) :
    phase_execs n re = ((List.range (n + 2).toNat).map re).flatten := by
  unfold phase_execs
  rw [phase_execs_foldl]
  simp

/-- C3 counterexample: with configured count 1 and a fully successful
environment, the phase executes the artifact six times -- three warm-up
and three timed executions, alternating -- not one discarded warm-up
followed by a single timed run. -/
theorem C3_counterexample :
    phase_execs 1 (fun _ => run_binary_execs ⟨true, some 0, some 0, 1⟩)
      = [ExecKind.warmup, ExecKind.timed, ExecKind.warmup, ExecKind.timed,
         ExecKind.warmup, ExecKind.timed] ∧
    phase_execs 1 (fun _ => run_binary_execs ⟨true, some 0, some 0, 1⟩)
      ≠ [ExecKind.warmup, ExecKind.timed] := by
  decide

/-- C3 (amended): in a measurement phase with configured count n ≥ 0 on
an existing binary whose warm-up calls never raise, every one of the
n + 2 timed executions is immediately preceded by its own discarded
warm-up execution, giving 2(n + 2) process executions in total; there is
no single shared warm-up. -/
theorem C3_warmup_per_timed_run (n : ℤ) (env : RunEnv) (hn : 0 ≤ n)
    (hbin : env.binExists = true) (w : ℤ) (hw : env.warmOutcome = some w) :
    phase_execs n (fun _ => run_binary_execs env)
      = (List.replicate (n.toNat + 2) [ExecKind.warmup, ExecKind.timed]).flatten ∧
    (phase_execs n (fun _ => run_binary_execs env)).length = (n.toNat + 2) * 2 := by
  have hre : run_binary_execs env = [ExecKind.warmup, ExecKind.timed] := by
    simp [run_binary_execs, hbin, hw]
  have hm : (n + 2).toNat = n.toNat + 2 := by omega
  have h1 : phase_execs n (fun _ => run_binary_execs env)
      = (List.replicate (n.toNat + 2) [ExecKind.warmup, ExecKind.timed]).flatten := by
    rw [phase_execs_eq]
    simp only [hre, List.map_const', List.length_range, hm]
  refine ⟨h1, ?_⟩
  rw [h1, flatten_replicate_pair_length]
  rfl

/-- Witness for C3 at count 0: the phase trace is two warm-up/timed
pairs, four executions in all. -/
theorem C3_warmup_per_timed_run_witness :
    phase_execs 0 (fun _ => run_binary_execs ⟨true, some 0, some 0, 1⟩)
      = (List.replicate ((0 : ℤ).toNat + 2) [ExecKind.warmup, ExecKind.timed]).flatten ∧
    (phase_execs 0 (fun _ => run_binary_execs ⟨true, some 0, some 0, 1⟩)).length
      = ((0 : ℤ).toNat + 2) * 2 :=
  C3_warmup_per_timed_run 0 ⟨true, some 0, some 0, 1⟩ (by norm_num) rfl 0 rfl

/-- C6: a timed execution contributes a sample exactly when its exit
code is 0 or 1; a timed run that raises (60-second timeout, spawn
error) yields no sample; and a failed iteration of the measurement loop
only removes its own sample -- the samples of all other iterations are
kept unchanged, so the loop continues and the benchmark is not
aborted. -/
theorem C6_sample_acceptance :
    (∀ env : RunEnv, env.binExists = true → ∀ w, env.warmOutcome = some w →
      ∀ code, env.timedOutcome = some code →
        (run_binary env = some env.elapsed ↔ (code = 0 ∨ code = 1))) ∧
    (∀ env : RunEnv, env.binExists = true → ∀ w, env.warmOutcome = some w →
      env.timedOutcome = none → run_binary env = none) ∧
    (∀ (n : ℤ) (runs : ℕ → Option ℚ) (j : ℕ) (t : ℚ),
      0 < j → (j : ℤ) < n + 2 → runs j = none →
      ∃ pre post,
        phase_samples n (fun i => if i = j then some t else runs i)
          = pre ++ t :: post ∧
        phase_samples n runs = pre ++ post) := by
  refine ⟨?_, ?_, ?_⟩
  · rintro ⟨b, wo, td, e⟩ hb w hw code hc
    subst hb
    simp only at hw hc
    subst hw
    subst hc
    by_cases h : code = 0 ∨ code = 1 <;> simp [run_binary, h]
  · rintro ⟨b, wo, td, e⟩ hb w hw hc
    subst hb
    simp only at hw hc
    subst hw
    subst hc
    simp [run_binary]
  · intro n runs j t hj hjn hnone
    have hn : -1 ≤ n := by omega
    have hjm : j < (n + 2).toNat := by omega
    rw [phase_samples_eq_range' n _ hn, phase_samples_eq_range' n runs hn]
    have hsplit : List.range' 1 ((n + 2).toNat - 1)
        = List.range' 1 (j - 1) ++ j :: List.range' (j + 1) ((n + 2).toNat - j - 1) := by
      have h2 : List.range' j ((n + 2).toNat - j)
          = j :: List.range' (j + 1) ((n + 2).toNat - j - 1) := by
        have e0 : (n + 2).toNat - j = ((n + 2).toNat - j - 1) + 1 := by omega
        rw [e0, List.range'_succ]
        simp
      have h3 := List.range'_append 1 (j - 1) ((n + 2).toNat - j) 1
      have e1 : 1 + 1 * (j - 1) = j := by omega
      have e2 : (n + 2).toNat - j + (j - 1) = (n + 2).toNat - 1 := by omega
      rw [e1, e2] at h3
      rw [← h3, h2]
    rw [hsplit]
    have hA : List.filterMap (fun i => if i = j then some t else runs i)
          (List.range' 1 (j - 1))
        = List.filterMap runs (List.range' 1 (j - 1)) := by
      refine List.filterMap_congr ?_
      intro x hx
      rw [List.mem_range'_1] at hx
      rw [if_neg (by omega : ¬ x = j)]
    have hB : List.filterMap (fun i => if i = j then some t else runs i)
          (List.range' (j + 1) ((n + 2).toNat - j - 1))
        = List.filterMap runs (List.range' (j + 1) ((n + 2).toNat - j - 1)) := by
      refine List.filterMap_congr ?_
      intro x hx
      rw [List.mem_range'_1] at hx
      rw [if_neg (by omega : ¬ x = j)]
    refine ⟨List.filterMap runs (List.range' 1 (j - 1)),
            List.filterMap runs (List.range' (j + 1) ((n + 2).toNat - j - 1)),
            ?_, ?_⟩
    · rw [List.filterMap_append, hA, List.filterMap_cons]
      simp [hB]
    · rw [List.filterMap_append, List.filterMap_cons, hnone]

/-- Witness for C6: an exit code of 1 is accepted, a raised timed run
yields no sample, and a single failed loop iteration removes exactly
its own sample. -/
theorem C6_sample_acceptance_witness :
    (run_binary ⟨true, some 0, some 1, 7⟩ = some 7) ∧
    (run_binary ⟨true, some 0, none, 7⟩ = none) ∧
    (∃ pre post,
      phase_samples 1 (fun i => if i = 2 then some 9
        else (fun i => if i = 2 then none else some 3) i) = pre ++ 9 :: post ∧
      phase_samples 1 (fun i => if i = 2 then none else some 3)
        = pre ++ post) := by
  refine ⟨?_, ?_, ?_⟩
  · exact (C6_sample_acceptance.1 ⟨true, some 0, some 1, 7⟩ rfl 0 rfl 1 rfl).mpr
      (Or.inr rfl)
  · exact C6_sample_acceptance.2.1 ⟨true, some 0, none, 7⟩ rfl 0 rfl rfl
  · exact C6_sample_acceptance.2.2 1 (fun i => if i = 2 then none else some 3) 2 9
      (by norm_num) (by norm_num) rfl

/-- C8 counterexample: the core rejects nothing.  The unknown category
filter bogus silently yields an empty benchmark list and an empty result
list from run_all; the non-positive iteration count 0 silently records a
single sample and -2 records none; no precondition violation is raised
anywhere (every core function is total). -/
theorem C8_counterexample :
    filter_benchmarks (some "bogus") = [] ∧
    run_all "O2" 5
      (fun _ => ⟨⟨true, some 0⟩, ⟨true, some 0⟩, fun _ => some 1, fun _ => some 1⟩)
      (some "bogus") = [] ∧
    phase_samples 0 (fun _ => some 1) = [1] ∧
    phase_samples (-2) (fun _ => some 1) = [] := by
  have hf : filter_benchmarks (some "bogus") = [] := by decide
  refine ⟨hf, ?_, by decide, by decide⟩
  simp [run_all, hf]

/-- C8 (amended): the core performs no configuration validation and
silently degrades instead of raising: a category filter matching no
catalog entry makes run_all return the empty result list, and an
iteration count of at most -2 makes the measurement phase record no
samples; both are ordinary return values, not errors. -/
theorem C8_no_validation (opt : String) (n : ℤ) (envs : String → BenchEnv)
    (c : String) (hc : ∀ p ∈ BENCHMARKS, p.2 ≠ c)
    (m : ℤ) (hm : m ≤ -2) (runs : ℕ → Option ℚ) :
    run_all opt n envs (some c) = [] ∧ phase_samples m runs = [] := by
  constructor
  · have hf : filter_benchmarks (some c) = [] := by
      rw [filter_benchmarks, List.filter_eq_nil_iff]
      intro p hp
      simp only [Bool.or_eq_true, Option.isNone_none, Option.isNone_some,
        beq_iff_eq, Option.some.injEq, Bool.false_eq_true, false_or]
      exact fun h => hc p hp h.symm
    simp [run_all, hf]
  · rw [phase_samples]
    have h0 : (m + 2).toNat = 0 := by omega
    rw [h0]
    rfl

/-- Witness for C8 at the concrete unknown category bogus and iteration
count -2. -/
theorem C8_no_validation_witness :
    run_all "O2" 5
      (fun _ => ⟨⟨true, some 0⟩, ⟨true, some 0⟩, fun _ => some 1, fun _ => some 1⟩)
      (some "bogus2") = [] ∧
    phase_samples (-2) (fun _ => some 2) = [] :=
  C8_no_validation "O2" 5
    (fun _ => ⟨⟨true, some 0⟩, ⟨true, some 0⟩, fun _ => some 1, fun _ => some 1⟩)
    "bogus2" (by decide) (-2) (by norm_num) (fun _ => some 2)

/-- Witness for C7 in a concrete environment where the candidate source
is missing and the reference side compiles and always succeeds. -/
theorem C7_missing_candidate_source_witness :
    (run_benchmark "01_fibonacci" "computational" "O2" 1
        ⟨⟨false, some 0⟩, ⟨true, some 0⟩, fun _ => some 1, fun _ => some 2⟩).fcx_compiled
      = false ∧
    (run_benchmark "01_fibonacci" "computational" "O2" 1
        ⟨⟨false, some 0⟩, ⟨true, some 0⟩, fun _ => some 1, fun _ => some 2⟩).fcx_times
      = [] := by
  constructor
  · exact (C7_missing_candidate_source "01_fibonacci" "computational" "O2" 1
      ⟨⟨false, some 0⟩, ⟨true, some 0⟩, fun _ => some 1, fun _ => some 2⟩ rfl).1
  · exact (C7_missing_candidate_source "01_fibonacci" "computational" "O2" 1
      ⟨⟨false, some 0⟩, ⟨true, some 0⟩, fun _ => some 1, fun _ => some 2⟩ rfl).2.1

/-- Multiplication by a nonnegative rational distributes over min. -/
theorem mul_min_rat (k a b : ℚ) (hk : 0 ≤ k) :
    k * min a b = min (k * a) (k * b) := by
  rcases le_total a b with h | h
  · rw [min_eq_left h, min_eq_left (mul_le_mul_of_nonneg_left h hk)]
  · rw [min_eq_right h, min_eq_right (mul_le_mul_of_nonneg_left h hk)]

/-- Scaling every element by a nonnegative factor scales the running
minimum of the fold. -/
theorem foldl_min_map_mul (k : ℚ) (hk : 0 ≤ k) :
    ∀ (l : List ℚ) (a : ℚ),
      (l.map (fun t => k * t)).foldl min (k * a) = k * l.foldl min a := by
  intro l
  induction l with
  | nil => intro a; rfl
  | cons b l ih =>
    intro a
    simp only [List.map_cons, List.foldl_cons]
    rw [← mul_min_rat k a b hk, ih]

/-- Scaling a non-empty list by a nonnegative factor scales its
minimum. -/
theorem listMin_map_mul (k : ℚ) (hk : 0 ≤ k) (l : List ℚ) (hl : l ≠ []) :
    listMin (l.map (fun t => k * t)) = k * listMin l := by
  cases l with
  | nil => exact absurd rfl hl
  | cons a l =>
    simp only [List.map_cons, listMin]
    exact foldl_min_map_mul k hk l a

/-- C9: scaling every candidate sample of a BenchmarkResult by a
positive factor k, with the reference samples unchanged, scales the
ratio by exactly k -- including the sentinel cases, where 0 is simply
carried through as k times 0. -/
theorem C9_ratio_scaling (r : BenchmarkResult) (k : ℚ) (hk : 0 < k) :
    ({ r with fcx_times := r.fcx_times.map (fun t => k * t) }
        : BenchmarkResult).ratio
      = k * r.ratio := by
  have hc : ({ r with fcx_times := r.fcx_times.map (fun t => k * t) }
      : BenchmarkResult).c_min = r.c_min := rfl
  have hmin : ({ r with fcx_times := r.fcx_times.map (fun t => k * t) }
      : BenchmarkResult).fcx_min = k * r.fcx_min := by
    by_cases h : r.fcx_times = []
    · simp [BenchmarkResult.fcx_min, h]
    · have h2 : r.fcx_times.map (fun t => k * t) ≠ [] := by
        simpa [List.map_eq_nil_iff] using h
      rw [BenchmarkResult.fcx_min, BenchmarkResult.fcx_min]
      rw [if_pos h2, if_pos h]
      exact listMin_map_mul k (le_of_lt hk) r.fcx_times h
  rw [BenchmarkResult.ratio, BenchmarkResult.ratio, hc, hmin]
  by_cases hg : 0 < r.c_min ∧ 0 < r.fcx_min
  · rw [if_pos hg, if_pos ⟨hg.1, mul_pos hk hg.2⟩, mul_div_assoc]
  · have hg2 : ¬(0 < r.c_min ∧ 0 < k * r.fcx_min) := by
      intro h
      exact hg ⟨h.1, (mul_pos_iff_of_pos_left hk).mp h.2⟩
    rw [if_neg hg, if_neg hg2, mul_zero]

/-- Witness for C9: scaling the candidate samples of a concrete result
by 3 scales its ratio by 3. -/
theorem C9_ratio_scaling_witness :
    ({ (⟨"a", "x", "O2", [4, 6], [2], true, true⟩ : BenchmarkResult) with
        fcx_times := (⟨"a", "x", "O2", [4, 6], [2], true, true⟩
          : BenchmarkResult).fcx_times.map (fun t => (3 : ℚ) * t) }
        : BenchmarkResult).ratio
      = 3 * (⟨"a", "x", "O2", [4, 6], [2], true, true⟩ : BenchmarkResult).ratio :=
  C9_ratio_scaling ⟨"a", "x", "O2", [4, 6], [2], true, true⟩ 3 (by norm_num)

/-- Concrete result with a built candidate side, used by the category
aggregation analysis for C4. -/
def c4r1 : BenchmarkResult := ⟨"a", "x", "O2", [4], [1], true, true⟩

/-- Concrete result whose candidate side recorded no samples, used by
the category aggregation analysis for C4. -/
def c4r2 : BenchmarkResult := ⟨"b", "x", "O2", [], [3], true, true⟩

/-- C4 counterexample: in a category holding one benchmark with
candidate minimum 4 and one whose candidate side has no samples
(minimum sentinel 0), with reference minimums 1 and 3, the code reports
4 / 2 = 2 (it averages only the strictly positive minimums), while the
claimed mean-of-all-minimums formula gives 2 / 2 = 1. -/
theorem C4_counterexample :
    category_ratio [c4r1, c4r2] = 2 ∧
    listMean [c4r1.fcx_min, c4r2.fcx_min]
        / listMean [c4r1.c_min, c4r2.c_min] = 1 ∧
    category_ratio [c4r1, c4r2]
      ≠ listMean [c4r1.fcx_min, c4r2.fcx_min]
          / listMean [c4r1.c_min, c4r2.c_min] := by
  have e1 : cat_fcx_mins [c4r1, c4r2] = [4] := by decide
  have e2 : cat_c_mins [c4r1, c4r2] = [1, 3] := by decide
  have e3 : cat_fcx_avg [c4r1, c4r2] = 4 := by
    simp only [cat_fcx_avg, e1, ne_eq, List.cons_ne_nil, not_false_eq_true,
      if_true]
    norm_num [listMean]
  have e4 : cat_c_avg [c4r1, c4r2] = 2 := by
    simp only [cat_c_avg, e2, ne_eq, List.cons_ne_nil, not_false_eq_true,
      if_true]
    norm_num [listMean]
  have e5 : category_ratio [c4r1, c4r2] = 2 := by
    simp only [category_ratio, e3, e4]
    norm_num
  have h4 : c4r1.fcx_min = 4 := by decide
  have h0 : c4r2.fcx_min = 0 := by decide
  have hc1 : c4r1.c_min = 1 := by decide
  have hc3 : c4r2.c_min = 3 := by decide
  have e6 : listMean [c4r1.fcx_min, c4r2.fcx_min] = 2 := by
    rw [h4, h0]
    norm_num [listMean]
  have e7 : listMean [c4r1.c_min, c4r2.c_min] = 2 := by
    rw [hc1, hc3]
    norm_num [listMean]
  refine ⟨e5, ?_, ?_⟩
  · rw [e6, e7]
    norm_num
  · rw [e5, e6, e7]
    norm_num

/-- C4 (amended): the reported category ratio equals the mean of the
strictly positive per-benchmark candidate minimums divided by the mean
of the strictly positive per-benchmark reference minimums whenever the
latter mean is strictly positive, and is the sentinel 0 otherwise, so
no division by an absent reference mean ever happens; for a category
consisting of a single benchmark it coincides with that benchmark's own
ratio. -/
theorem C4_category_ratio (rs : List BenchmarkResult) (r : BenchmarkResult) :
    (0 < cat_c_avg rs → category_ratio rs = cat_fcx_avg rs / cat_c_avg rs) ∧
    (¬ 0 < cat_c_avg rs → category_ratio rs = 0) ∧
    category_ratio [r] = r.ratio := by
  refine ⟨fun h => by rw [category_ratio, if_pos h],
          fun h => by rw [category_ratio, if_neg h], ?_⟩
  by_cases hc : 0 < r.c_min
  · have h1 : cat_c_avg [r] = r.c_min := by
      simp [cat_c_avg, cat_c_mins, List.filter_cons, hc, listMean]
    by_cases hf : 0 < r.fcx_min
    · have h2 : cat_fcx_avg [r] = r.fcx_min := by
        simp [cat_fcx_avg, cat_fcx_mins, List.filter_cons, hf, listMean]
      rw [category_ratio, h1, h2, if_pos hc, BenchmarkResult.ratio,
        if_pos ⟨hc, hf⟩]
    · have h2 : cat_fcx_avg [r] = 0 := by
        simp [cat_fcx_avg, cat_fcx_mins, List.filter_cons, hf]
      rw [category_ratio, h1, h2, if_pos hc, BenchmarkResult.ratio,
        if_neg (fun h => hf h.2), zero_div]
  · have h1 : cat_c_avg [r] = 0 := by
      simp [cat_c_avg, cat_c_mins, List.filter_cons, hc]
    rw [category_ratio, h1, if_neg (lt_irrefl 0), BenchmarkResult.ratio,
      if_neg (fun h => hc h.1)]

/-- Witness for C4 at concrete result sets: a singleton category with
positive reference data gets the quotient of the filtered means, and a
singleton category reproduces its benchmark's own ratio. -/
theorem C4_category_ratio_witness :
    category_ratio [c4r1] = cat_fcx_avg [c4r1] / cat_c_avg [c4r1] ∧
    category_ratio [c4r2] = c4r2.ratio := by
  constructor
  · refine (C4_category_ratio [c4r1] c4r1).1 ?_
    have e : cat_c_mins [c4r1] = [1] := by decide
    simp only [cat_c_avg, e, ne_eq, List.cons_ne_nil, not_false_eq_true,
      if_true]
    norm_num [listMean]
  · exact (C4_category_ratio [c4r2] c4r2).2.2

end FCx
